import Mathlib

/-!
Verification of the command-output classification pipeline of the
siris_show Ansible module (src/roles/discover/library/siris_show_BACKUP.py).

The module receives raw terminal text and tries to structure it with the
external clitable / textfsm libraries.  The functions below are a shallow
embedding of the parsing-relevant code of the module: Python dicts become
association lists in insertion order, Python exceptions become an error
type threaded through Except, and the external engine call
cli_table.ParseCmd enters the model as an explicit parameter, since its
implementation is not part of this repository.
-/

namespace SirisShow

/-- One Python dict with string keys and string values, modelled as an
association list kept in insertion order. -/
abbrev Record := List (String × String)

/-- Python dict assignment d[k] = v: overwrite the existing binding for k in
place when one is present, otherwise append the new binding at the end. -/
def dictAssign (d : Record) (k v : String) : Record :=
  if d.any (fun p => p.1 == k) then
    d.map (fun p => if p.1 == k then (k, v) else p)
  else
    d ++ [(k, v)]

/-- Python dict subscript read d[k] as a partial operation: the value bound
to k when present, none when the subscript would raise KeyError.  The
association list built by dictAssign binds each key at most once, so the
first hit is the binding. -/
def dictGet : Record → String → Option String
  | [], _ => none
  | p :: rest, k => if p.1 == k then some p.2 else dictGet rest k

/-- The Python exception classes that can cross the functions modelled here.
clitable.CliTableError is its own class; the textfsm error classes are a
separate hierarchy and are not subclasses of it; KeyError and IndexError come
from dict and list subscripts. -/
inductive PyError
  | cliTableError (msg : String)
  | textFSMError (msg : String)
  | keyError
  | indexError
deriving DecidableEq, Repr

/-- Python str.lower of the source, applied to header names: lower-case the
string character by character. -/
def pyLower (s : String) : String :=
  ⟨s.data.map Char.toLower⟩

/-- The inner loop of clitable_to_dict over one row (src lines 233-237):
for index, element in enumerate(row), assign
temp_dict[header[index].lower()] = element.  The subscript header[index]
raises IndexError (modelled as none) when the row is longer than the
header. -/
def rowLoop (header : List String) : Nat → Record → List String → Option Record
  | _, temp_dict, [] => some temp_dict
  | index, temp_dict, element :: rest =>
    match header.get? index with
    | none => none
    | some h => rowLoop header (index + 1) (dictAssign temp_dict (pyLower h) element) rest

/-- clitable_to_dict (src lines 229-239): converts a TextFSM cli table, given
as its header together with its rows, to a list of dictionaries, one per row
in row order.  Returns none exactly when the Python code would raise
IndexError out of the row loop. -/
def clitable_to_dict (header : List String) : List (List String) → Option (List Record)
  | [] => some []
  | row :: rest =>
    match rowLoop header 0 [] row, clitable_to_dict header rest with
    | some temp_dict, some objs => some (temp_dict :: objs)
    | _, _ => none

/-- The behaviour of the external engine call cli_table.ParseCmd on a given
raw text: either the parsed header and rows, or a raised exception.  The
engine lives in the external clitable / textfsm libraries, so it enters the
model as a parameter of the repository functions that call it. -/
abbrev Engine := String → Except PyError (List String × List (List String))

/-- The value get_structured_data returns: a list of parsed record dicts on
the success path, or the single-element list holding the raw text on the
fallback path. -/
inductive StructuredData
  | records (objs : List Record)
  | raw (text : String)
deriving DecidableEq, Repr

/-- get_structured_data (src lines 242-260): run the engine on the raw
output.  An exception of class CliTableError is absorbed and turned into the
single-element raw-text fallback [rawoutput]; an exception of any other class
propagates, because the except clause at src line 254 names only
CliTableError; a successful parse is normalised by clitable_to_dict, whose
own IndexError would also propagate. -/
def get_structured_data (parseCmd : Engine) (rawoutput : String) :
    Except PyError StructuredData :=
  match parseCmd rawoutput with
  | .ok (header, rows) =>
    match clitable_to_dict header rows with
    | some objs => .ok (.records objs)
    | none => .error .indexError
  | .error (.cliTableError _) => .ok (.raw rawoutput)
  | .error e => .error e

/-- The value parse_raw_output returns: one structured value for plain-text
input, or a list of device and response pairs for per-device dict input.
The source builds the pairs as dict(device=..., response=...). -/
inductive ParseRawResult
  | single (sd : StructuredData)
  | perDevice (entries : List (String × StructuredData))
deriving DecidableEq, Repr

/-- The per-device loop of parse_raw_output (src lines 269-274): for each
device in iteration order, read command_output[command] (KeyError when the
key is absent), structure the text, and append the device and response pair.
Any exception aborts the loop and propagates. -/
def deviceLoop (parseCmd : Engine) (command : String) :
    List (String × Record) → Except PyError (List (String × StructuredData))
  | [] => .ok []
  | (device, command_output) :: rest =>
    match dictGet command_output command with
    | none => .error .keyError
    | some raw_txt =>
      match get_structured_data parseCmd raw_txt with
      | .error e => .error e
      | .ok sd =>
        match deviceLoop parseCmd command rest with
        | .error e => .error e
        | .ok entries => .ok ((device, sd) :: entries)

/-- The two shapes of rawoutput accepted by parse_raw_output: a plain string
from netmiko or the offline file, or a per-device dict of command dicts from
trigger. -/
inductive RawOutput
  | text (s : String)
  | perDevice (devices : List (String × Record))

/-- parse_raw_output (src lines 263-278): dict input goes through the
per-device loop and returns the response list; other input is structured
directly.  The final line of the source returns
structured_data or structured_data_response_list; in the dict branch
structured_data is the empty dict, hence falsy, so the response list is
returned, and in the text branch an empty structured_data and the empty
response list are the same empty-list value, so the model keeps each branch
as its own constructor. -/
def parse_raw_output (parseCmd : Engine) (command : String) :
    RawOutput → Except PyError ParseRawResult
  | .perDevice devices =>
    match deviceLoop parseCmd command devices with
    | .error e => .error e
    | .ok entries => .ok (.perDevice entries)
  | .text s =>
    match get_structured_data parseCmd s with
    | .error e => .error e
    | .ok sd => .ok (.single sd)

/-- A value bound to results of the response keys in main: the initial empty
list, the output of parse_raw_output, the single-element list [rawtxt] of the
template-free branch, or the single-element list holding the raw trigger
results dict. -/
inductive RespVal
  | emptyList
  | ofParse (r : ParseRawResult)
  | ofRawtxt (s : String)
  | ofTrigger
deriving DecidableEq, Repr

/-- How main ends: module.exit_json with the response and response_list
values, module.fail_json with a message, or an uncaught Python exception
escaping main. -/
inductive MainOutcome
  | exit_json (response : RespVal) (response_list : RespVal)
  | fail_json (msg : String)
  | uncaught (e : PyError)
deriving DecidableEq, Repr

/-- The result dispatch at the end of main (src lines 437-453): results
starts as empty response and response_list; with use_templates, a truthy
rawtxt is parsed into response, else a truthy trigger_device_list parses the
trigger results into response_list; without use_templates the raw values are
passed through; module.exit_json is reached on every path, and no branch of
this dispatch calls module.fail_json.  Python truthiness of the string is
nonemptiness, and of the device list (possibly None) is nonemptiness of the
modelled list. -/
def main_dispatch (use_templates : Bool) (rawtxt : String)
    (trigger_device_list : List String) (parseCmd : Engine) (command : String)
    (trigger_results : List (String × Record)) : MainOutcome :=
  if use_templates then
    if rawtxt ≠ "" then
      match parse_raw_output parseCmd command (.text rawtxt) with
      | .ok r => .exit_json (.ofParse r) .emptyList
      | .error e => .uncaught e
    else if trigger_device_list ≠ [] then
      match parse_raw_output parseCmd command (.perDevice trigger_results) with
      | .ok r => .exit_json .emptyList (.ofParse r)
      | .error e => .uncaught e
    else
      .exit_json .emptyList .emptyList
  else if rawtxt ≠ "" then
    .exit_json (.ofRawtxt rawtxt) .emptyList
  else if trigger_device_list ≠ [] then
    .exit_json .ofTrigger .emptyList
  else
    .exit_json .emptyList .emptyList

/-- Python str.endswith with the one-character slash suffix, as used at src
line 367: true exactly when the last character of the string is a slash. -/
def pyEndswithSlash (s : String) : Bool :=
  match s.data.reverse with
  | [] => false
  | c :: _ => c == '/'

/-- Python str.rstrip with the slash character as its argument: the string
with every trailing slash removed. -/
def pyRstripSlash (s : String) : String :=
  ⟨(s.data.reverse.dropWhile (fun c => c == '/')).reverse⟩

/-- src lines 367-368: when template_dir ends with a slash, the rstrip call
is evaluated as a bare expression statement and its result is discarded, so
the bound value is the unchanged template_dir on both branches. -/
def template_dir_after_check (template_dir : String) : String :=
  if pyEndswithSlash template_dir then
    let _discarded := pyRstripSlash template_dir
    template_dir
  else
    template_dir

/-- src line 371: the path handed to the index-file existence check,
template_dir + slash + index_file. -/
def index_file_path (template_dir index_file : String) : String :=
  template_dir ++ "/" ++ index_file

/-- Modelled from the spec: the template index itself lives in the external
clitable library, not under src.  Spec section 4.1 describes an entry as a
platform pattern and a command pattern, each an anchored regular expression,
together with a template path; the two pattern tests are abstracted here as
Boolean match functions on the candidate strings. -/
structure TemplateIndexEntry where
  platform_match : String → Bool
  command_match : String → Bool
  template_path : String

/-- Modelled from the spec: a candidate entry matches only if both of its
patterns match. -/
def entryMatches (e : TemplateIndexEntry) (platform command : String) : Bool :=
  e.platform_match platform && e.command_match command

/-- Modelled from the spec: entries are evaluated in file order and the first
entry whose both patterns match is selected; no matching entry is a not-found
result, not an error. -/
def index_lookup : List TemplateIndexEntry → String → String → Option String
  | [], _, _ => none
  | e :: rest, platform, command =>
    if entryMatches e platform command then some e.template_path
    else index_lookup rest platform command

/-- A concrete engine behaviour: the clitable lookup finds no template for
the given attributes and raises CliTableError, as the library does on an
index miss. -/
def engineNoTemplate : Engine :=
  fun _ => .error (.cliTableError "No template found for attributes")

/-- A concrete engine behaviour: the template applies but none of its rules
match the raw text, so the parse succeeds with a header and zero rows. -/
def engineZeroRows : Engine :=
  fun _ => .ok (["vlan", "status", "ports"], [])

/-- A concrete engine behaviour: the textfsm state machine hits a runtime
error while scanning and raises an exception that is not a CliTableError. -/
def engineStateError : Engine :=
  fun _ => .error (.textFSMError "State Error while scanning")

/-- A generic index entry matching every platform and command. -/
def genericEntry : TemplateIndexEntry :=
  ⟨fun _ => true, fun _ => true, "generic_template"⟩

/-- A specific index entry matching exactly one platform and command pair. -/
def specificEntry : TemplateIndexEntry :=
  ⟨fun p => p == "cisco_nxos", fun c => c == "show vlan", "specific_template"⟩

/-- C1: whenever the engine call raises a CliTableError for the given raw
text, get_structured_data absorbs the error and returns the single-element
raw-text fallback holding the input unchanged; no error reaches the
caller. -/
theorem c1_clitableerror_absorbed (parseCmd : Engine) (rawoutput msg : String)
    (h : parseCmd rawoutput = .error (.cliTableError msg)) :
    get_structured_data parseCmd rawoutput = .ok (.raw rawoutput) := by
  simp [get_structured_data, h]

/-- Witness for C1 at a concrete engine and raw text. -/
theorem c1_witness :
    engineNoTemplate "show vlan output" =
      .error (.cliTableError "No template found for attributes") ∧
    get_structured_data engineNoTemplate "show vlan output" =
      .ok (.raw "show vlan output") :=
  ⟨rfl, c1_clitableerror_absorbed engineNoTemplate "show vlan output" _ rfl⟩

/-- C2 fails as stated: with empty captured output and no trigger device
list, the result dispatch of main reaches module.exit_json with empty
response and response_list, an ordinary success, and neither fail_json nor
an uncaught exception occurs. -/
theorem c2_counterexample :
    main_dispatch true "" [] engineZeroRows "show version" [] =
      .exit_json .emptyList .emptyList ∧
    (∀ msg, main_dispatch true "" [] engineZeroRows "show version" [] ≠
      .fail_json msg) ∧
    (∀ e, main_dispatch true "" [] engineZeroRows "show version" [] ≠
      .uncaught e) := by
  refine ⟨rfl, fun msg h => ?_, fun e h => ?_⟩
  · have h2 : (MainOutcome.exit_json .emptyList .emptyList) =
        MainOutcome.fail_json msg := h
    exact MainOutcome.noConfusion h2
  · have h2 : (MainOutcome.exit_json .emptyList .emptyList) =
        MainOutcome.uncaught e := h
    exact MainOutcome.noConfusion h2

/-- C2 amended: when the caller supplies no raw text and no trigger device
list, main returns an ordinary success with empty response and
response_list; no explicit error is signalled for missing input. -/
theorem c2_amended_empty_input_success (use_templates : Bool) (parseCmd : Engine)
    (command : String) (trigger_results : List (String × Record)) :
    main_dispatch use_templates "" [] parseCmd command trigger_results =
      .exit_json .emptyList .emptyList := by
  cases use_templates <;> rfl

/-- C3 fails as stated: with a template whose rules match nothing, the engine
returns zero rows and get_structured_data returns the empty structured list,
not the raw-text fallback. -/
theorem c3_counterexample :
    get_structured_data engineZeroRows "Vlan1   active    Gi0/1" =
      .ok (.records []) ∧
    get_structured_data engineZeroRows "Vlan1   active    Gi0/1" ≠
      .ok (.raw "Vlan1   active    Gi0/1") := by
  refine ⟨rfl, fun h => ?_⟩
  have h2 : (Except.ok (StructuredData.records []) :
      Except PyError StructuredData) =
      Except.ok (StructuredData.raw "Vlan1   active    Gi0/1") := h
  injection h2 with h3
  exact StructuredData.noConfusion h3

/-- C3 amended: when the engine parses successfully but produces zero rows,
the classification returns the empty structured list (a success with zero
records); the byte-for-byte raw fallback arises only from a CliTableError. -/
theorem c3_amended_zero_rows (parseCmd : Engine) (rawoutput : String)
    (header : List String) (h : parseCmd rawoutput = .ok (header, [])) :
    get_structured_data parseCmd rawoutput = .ok (.records []) := by
  simp [get_structured_data, h, clitable_to_dict]

/-- Witness for the amended C3 at a concrete engine and raw text. -/
theorem c3_witness :
    engineZeroRows "abc" = .ok (["vlan", "status", "ports"], []) ∧
    get_structured_data engineZeroRows "abc" = .ok (.records []) :=
  ⟨rfl, c3_amended_zero_rows engineZeroRows "abc" ["vlan", "status", "ports"] rfl⟩

/-- C4 fails as stated: a runtime parsing exception that is not a
CliTableError, such as a textfsm state error raised while scanning,
propagates out of get_structured_data instead of falling back to raw
text. -/
theorem c4_counterexample :
    get_structured_data engineStateError "interface output" =
      .error (.textFSMError "State Error while scanning") ∧
    get_structured_data engineStateError "interface output" ≠
      .ok (.raw "interface output") := by
  refine ⟨rfl, fun h => ?_⟩
  have h2 : (Except.error (PyError.textFSMError "State Error while scanning") :
      Except PyError StructuredData) =
      Except.ok (StructuredData.raw "interface output") := h
  exact Except.noConfusion h2

/-- C4 amended: only the CliTableError class is absorbed into the raw-text
fallback; an engine exception of any other parsing class, here a textfsm
error, propagates unchanged out of get_structured_data. -/
theorem c4_amended_textfsm_propagates (parseCmd : Engine) (rawoutput msg : String)
    (h : parseCmd rawoutput = .error (.textFSMError msg)) :
    get_structured_data parseCmd rawoutput = .error (.textFSMError msg) := by
  simp [get_structured_data, h]

/-- Witness for the amended C4 at a concrete engine and raw text. -/
theorem c4_witness :
    engineStateError "abc" = .error (.textFSMError "State Error while scanning") ∧
    get_structured_data engineStateError "abc" =
      .error (.textFSMError "State Error while scanning") :=
  ⟨rfl, c4_amended_textfsm_propagates engineStateError "abc" _ rfl⟩

/-- C5: index lookup is first-match-wins in file order.  The lookup equals
the first entry in list order whose both patterns match, and in particular,
when an earlier matching entry precedes a later matching entry, the earlier
one is selected no matter how specific the later one is. -/
theorem c5_first_match_wins :
    (∀ (entries : List TemplateIndexEntry) (platform command : String),
      index_lookup entries platform command =
        (entries.find? (fun e => entryMatches e platform command)).map
          (fun e => e.template_path)) ∧
    (∀ (pre : List TemplateIndexEntry) (e : TemplateIndexEntry)
        (mid : List TemplateIndexEntry) (e2 : TemplateIndexEntry)
        (post : List TemplateIndexEntry) (platform command : String),
      (∀ f ∈ pre, entryMatches f platform command = false) →
      entryMatches e platform command = true →
      entryMatches e2 platform command = true →
      index_lookup (pre ++ e :: (mid ++ e2 :: post)) platform command =
        some e.template_path) := by
  have hfind : ∀ (entries : List TemplateIndexEntry) (platform command : String),
      index_lookup entries platform command =
        (entries.find? (fun e => entryMatches e platform command)).map
          (fun e => e.template_path) := by
    intro entries platform command
    induction entries with
    | nil => rfl
    | cons e rest ih =>
      cases hm : entryMatches e platform command with
      | true => simp [index_lookup, List.find?, hm]
      | false => simp [index_lookup, List.find?, hm, ih]
  refine ⟨hfind, ?_⟩
  intro pre e mid e2 post platform command hpre hme _hme2
  induction pre with
  | nil => simp [index_lookup, hme]
  | cons f pre ihp =>
    have hf : entryMatches f platform command = false := hpre f (by simp)
    have htail := ihp (fun g hg => hpre g (by simp [hg]))
    simpa [index_lookup, hf] using htail

/-- Witness for C5: a generic entry placed before a more specific entry wins
the lookup for a pair that both entries match. -/
theorem c5_witness :
    index_lookup [genericEntry, specificEntry] "cisco_nxos" "show vlan" =
      some "generic_template" := by
  have h := c5_first_match_wins.2 [] genericEntry [] specificEntry []
    "cisco_nxos" "show vlan" (fun f hf => absurd hf (List.not_mem_nil f))
    (by decide) (by decide)
  simpa using h

/-- C8: with templates enabled, empty raw text, and no trigger device list,
main exits successfully with the initial empty response list, which holds
zero structured records; the outcome is not the raw-text fallback
constructor and not a failure, for every engine. -/
theorem c8_empty_rawtxt_zero_records (parseCmd : Engine) (command : String)
    (trigger_results : List (String × Record)) :
    main_dispatch true "" [] parseCmd command trigger_results =
      .exit_json .emptyList .emptyList := rfl

/-- Dropping a prefix of a list never makes it longer. -/
theorem dropWhile_length_le (p : Char → Bool) (l : List Char) :
    (l.dropWhile p).length ≤ l.length := by
  induction l with
  | nil => simp
  | cons a t ih =>
    rw [List.dropWhile_cons]
    split
    · exact Nat.le_trans ih (Nat.le_succ _)
    · exact Nat.le_refl _

/-- C9: when template_dir ends in a slash, the rstrip result is discarded,
so the value flowing onward is template_dir itself even though the rstrip
call would have produced a strictly different string, and the index-file
existence check receives the path built from the unchanged template_dir. -/
theorem c9_rstrip_noop (template_dir : String)
    (h : pyEndswithSlash template_dir = true) :
    template_dir_after_check template_dir = template_dir ∧
    pyRstripSlash template_dir ≠ template_dir ∧
    index_file_path (template_dir_after_check template_dir) "index" =
      template_dir ++ "/" ++ "index" := by
  have h1 : template_dir_after_check template_dir = template_dir := by
    simp [template_dir_after_check, h]
  refine ⟨h1, ?_, by rw [h1]; rfl⟩
  intro heq
  have hdata : (template_dir.data.reverse.dropWhile (fun c => c == '/')).reverse =
      template_dir.data := congrArg String.data heq
  have hlen : (template_dir.data.reverse.dropWhile (fun c => c == '/')).length =
      template_dir.data.length := by
    have h2 := congrArg List.length hdata
    simpa using h2
  cases hrev : template_dir.data.reverse with
  | nil => simp [pyEndswithSlash, hrev] at h
  | cons c cs =>
    have hc : (c == '/') = true := by
      have h3 := h
      simp only [pyEndswithSlash, hrev] at h3
      exact h3
    have hlen2 : template_dir.data.length = cs.length + 1 := by
      rw [← List.length_reverse template_dir.data, hrev]
      rfl
    rw [hrev, List.dropWhile_cons, if_pos hc] at hlen
    have hle : (cs.dropWhile (fun c => c == '/')).length ≤ cs.length :=
      dropWhile_length_le (fun c => c == '/') cs
    omega

/-- Witness for C9 at a concrete directory ending in a slash. -/
theorem c9_witness :
    pyEndswithSlash "templates/" = true ∧
    (template_dir_after_check "templates/" = "templates/" ∧
     pyRstripSlash "templates/" ≠ "templates/" ∧
     index_file_path (template_dir_after_check "templates/") "index" =
       "templates/" ++ "/" ++ "index") :=
  ⟨by decide, c9_rstrip_noop "templates/" (by decide)⟩

/-- Overwriting the bindings of k in place makes k read back the fresh
value, provided some binding of k was present. -/
theorem dictGet_overwrite_self (k v : String) :
    ∀ t : Record, t.any (fun p => p.1 == k) = true →
      dictGet (t.map (fun p => if p.1 == k then (k, v) else p)) k = some v := by
  intro t
  induction t with
  | nil => intro h; cases h
  | cons a t ih =>
    intro hany
    cases hak : (a.1 == k) with
    | true => simp [dictGet, hak]
    | false =>
      have hany2 : t.any (fun p => p.1 == k) = true := by
        simpa [List.any_cons, hak] using hany
      simpa [dictGet, hak] using ih hany2

/-- Overwriting the bindings of k in place leaves every other key
untouched. -/
theorem dictGet_overwrite_ne (k v k2 : String) (hne : k2 ≠ k) (t : Record) :
    dictGet (t.map (fun p => if p.1 == k then (k, v) else p)) k2 =
      dictGet t k2 := by
  have hkk2 : ((k : String) == k2) = false :=
    beq_eq_false_iff_ne.mpr (fun h => hne h.symm)
  induction t with
  | nil => rfl
  | cons a t ih =>
    cases hak : (a.1 == k) with
    | true =>
      have ha2 : (a.1 == k2) = false := by
        rw [beq_eq_false_iff_ne]
        intro h
        exact hne (h.symm.trans (eq_of_beq hak))
      simpa [dictGet, hak, ha2, hkk2] using ih
    | false =>
      cases ha2 : (a.1 == k2) with
      | true => simp [dictGet, hak, ha2]
      | false => simpa [dictGet, hak, ha2] using ih

/-- Appending a fresh binding of k makes k read back its value, provided no
binding of k was present before. -/
theorem dictGet_append_fresh (k v : String) :
    ∀ d : Record, d.any (fun p => p.1 == k) = false →
      dictGet (d ++ [(k, v)]) k = some v := by
  intro d
  induction d with
  | nil => intro _; simp [dictGet]
  | cons a t ih =>
    intro hnone
    have hak : (a.1 == k) = false := by
      cases h : (a.1 == k) with
      | true => simp [List.any_cons, h] at hnone
      | false => rfl
    have ht : t.any (fun p => p.1 == k) = false := by
      simpa [List.any_cons, hak] using hnone
    simp [dictGet, hak, ih ht]

/-- Appending a binding of k leaves every other key untouched. -/
theorem dictGet_append_ne (k v k2 : String) (hne : k2 ≠ k) (d : Record) :
    dictGet (d ++ [(k, v)]) k2 = dictGet d k2 := by
  have hkk2 : ((k : String) == k2) = false :=
    beq_eq_false_iff_ne.mpr (fun h => hne h.symm)
  induction d with
  | nil => simp [dictGet, hkk2]
  | cons a t ih =>
    cases ha2 : (a.1 == k2) with
    | true => simp [dictGet, ha2]
    | false => simp [dictGet, ha2, ih]

/-- After a Python dict assignment, the assigned key reads back the assigned
value. -/
theorem dictGet_dictAssign_self (d : Record) (k v : String) :
    dictGet (dictAssign d k v) k = some v := by
  rw [dictAssign]
  cases hany : d.any (fun p => p.1 == k) with
  | true =>
    rw [if_pos rfl]
    exact dictGet_overwrite_self k v d hany
  | false =>
    rw [if_neg (by simp)]
    exact dictGet_append_fresh k v d hany

/-- A Python dict assignment leaves every other key unchanged. -/
theorem dictGet_dictAssign_ne (d : Record) (k v k2 : String) (hne : k2 ≠ k) :
    dictGet (dictAssign d k v) k2 = dictGet d k2 := by
  rw [dictAssign]
  cases hany : d.any (fun p => p.1 == k) with
  | true =>
    rw [if_pos rfl]
    exact dictGet_overwrite_ne k v k2 hne d
  | false =>
    rw [if_neg (by simp)]
    exact dictGet_append_ne k v k2 hne d

/-- The row loop of clitable_to_dict, run from any starting index and
accumulator: it succeeds whenever the row does not outrun the header, every
processed column reads back its element under the lower-cased header name
when the lower-cased header names are distinct, and keys outside the
processed slice keep their accumulator bindings. -/
theorem rowLoop_spec (header : List String)
    (hnodup : (header.map pyLower).Nodup) :
    ∀ (row : List String) (index : Nat) (acc : Record),
      index + row.length ≤ header.length →
      ∃ d, rowLoop header index acc row = some d ∧
        (∀ j (hj : j < row.length) (hidx : index + j < header.length),
          dictGet d (pyLower (header.get ⟨index + j, hidx⟩)) =
            some (row.get ⟨j, hj⟩)) ∧
        (∀ k2, (∀ j (hj : j < row.length) (hidx : index + j < header.length),
            k2 ≠ pyLower (header.get ⟨index + j, hidx⟩)) →
          dictGet d k2 = dictGet acc k2) := by
  intro row
  induction row with
  | nil =>
    intro index acc _
    exact ⟨acc, rfl, fun j hj => absurd hj (Nat.not_lt_zero j), fun k2 _ => rfl⟩
  | cons e rest ih =>
    intro index acc hbound
    have hidx0 : index < header.length := by
      simp only [List.length_cons] at hbound
      omega
    have hbound2 : (index + 1) + rest.length ≤ header.length := by
      simp only [List.length_cons] at hbound
      omega
    have hne_later : ∀ j2 (hj2 : j2 < rest.length)
        (hidx2 : (index + 1) + j2 < header.length),
        pyLower (header.get ⟨index, hidx0⟩) ≠
          pyLower (header.get ⟨(index + 1) + j2, hidx2⟩) := by
      intro j2 hj2 hidx2 hcontra
      have hmap : (header.map pyLower).get
          ⟨index, by simpa using hidx0⟩ =
          (header.map pyLower).get
          ⟨(index + 1) + j2, by simpa using hidx2⟩ := by
        rw [List.get_map, List.get_map]
        exact hcontra
      have hfin := (hnodup.get_inj_iff).mp hmap
      have hval : index = (index + 1) + j2 := congrArg Fin.val hfin
      omega
    obtain ⟨d, hd, hvals, hpres⟩ := ih (index + 1)
      (dictAssign acc (pyLower (header.get ⟨index, hidx0⟩)) e) hbound2
    refine ⟨d, ?_, ?_, ?_⟩
    · rw [rowLoop, List.get?_eq_get hidx0]
      exact hd
    · intro j hj hidx
      cases j with
      | zero =>
        have h0 : dictGet d (pyLower (header.get ⟨index, hidx0⟩)) =
            dictGet (dictAssign acc (pyLower (header.get ⟨index, hidx0⟩)) e)
              (pyLower (header.get ⟨index, hidx0⟩)) :=
          hpres _ (fun j2 hj2 hidx2 => hne_later j2 hj2 hidx2)
        rw [dictGet_dictAssign_self] at h0
        exact h0
      | succ j2 =>
        have hj2 : j2 < rest.length := Nat.lt_of_succ_lt_succ hj
        have hidx2 : (index + 1) + j2 < header.length := by omega
        have h0 := hvals j2 hj2 hidx2
        have hixeq : (⟨(index + 1) + j2, hidx2⟩ : Fin header.length) =
            ⟨index + (j2 + 1), hidx⟩ := by
          apply Fin.ext
          show (index + 1) + j2 = index + (j2 + 1)
          omega
        rw [hixeq] at h0
        exact h0
    · intro k2 hk2
      have h1 : dictGet d k2 =
          dictGet (dictAssign acc (pyLower (header.get ⟨index, hidx0⟩)) e) k2 := by
        apply hpres
        intro j2 hj2 hidx2
        have hidx2b : index + (j2 + 1) < header.length := by omega
        have h2 := hk2 (j2 + 1) (Nat.succ_lt_succ hj2) hidx2b
        have hixeq : (⟨index + (j2 + 1), hidx2b⟩ : Fin header.length) =
            ⟨(index + 1) + j2, hidx2⟩ := by
          apply Fin.ext
          show index + (j2 + 1) = (index + 1) + j2
          omega
        rw [hixeq] at h2
        exact h2
      rw [h1, dictGet_dictAssign_ne]
      exact hk2 0 (Nat.succ_pos _) hidx0

/-- C6: on a well-formed parsed table, where no row has more values than the
header has columns and the lower-cased header names are distinct,
clitable_to_dict returns exactly one dict per row in row order, and the i-th
dict maps the lower-cased j-th header name to the j-th value of the i-th
row for every column position j of that row. -/
theorem c6_one_mapping_per_row (header : List String) (rows : List (List String))
    (hnodup : (header.map pyLower).Nodup)
    (hlen : ∀ row ∈ rows, row.length ≤ header.length) :
    ∃ out, clitable_to_dict header rows = some out ∧
      out.length = rows.length ∧
      ∀ i (hi : i < rows.length) (hi2 : i < out.length)
        (j : Nat) (hj : j < (rows.get ⟨i, hi⟩).length) (hjh : j < header.length),
        dictGet (out.get ⟨i, hi2⟩) (pyLower (header.get ⟨j, hjh⟩)) =
          some ((rows.get ⟨i, hi⟩).get ⟨j, hj⟩) := by
  induction rows with
  | nil =>
    exact ⟨[], rfl, rfl, fun i hi => absurd hi (Nat.not_lt_zero i)⟩
  | cons row rest ih =>
    obtain ⟨d, hd, hvals, _⟩ := rowLoop_spec header hnodup row 0 []
      (by simpa using hlen row (by simp))
    obtain ⟨out, hout, hlen2, hrec⟩ := ih (fun r hr => hlen r (by simp [hr]))
    refine ⟨d :: out, ?_, by simp [hlen2], ?_⟩
    · rw [clitable_to_dict, hd, hout]
    · intro i hi hi2 j hj hjh
      cases i with
      | zero =>
        have h0 := hvals j hj (by omega)
        simp only [Nat.zero_add] at h0
        exact h0
      | succ i2 =>
        exact hrec i2 (Nat.lt_of_succ_lt_succ hi) (Nat.lt_of_succ_lt_succ hi2)
          j hj hjh

/-- Witness for C6 on the concrete one-row scenario used in the spec. -/
theorem c6_witness :
    ((["Vlan", "Status", "Ports"].map pyLower).Nodup) ∧
    (∀ row ∈ [["Vlan1", "active", "Gi0/1, Gi0/2"]],
      row.length ≤ (["Vlan", "Status", "Ports"] : List String).length) ∧
    (∃ out, clitable_to_dict ["Vlan", "Status", "Ports"]
        [["Vlan1", "active", "Gi0/1, Gi0/2"]] = some out ∧
      out.length = 1 ∧
      ∀ i (hi : i < ([["Vlan1", "active", "Gi0/1, Gi0/2"]] :
          List (List String)).length)
        (hi2 : i < out.length) (j : Nat)
        (hj : j < (([["Vlan1", "active", "Gi0/1, Gi0/2"]] :
          List (List String)).get ⟨i, hi⟩).length)
        (hjh : j < (["Vlan", "Status", "Ports"] : List String).length),
        dictGet (out.get ⟨i, hi2⟩)
            (pyLower ((["Vlan", "Status", "Ports"] : List String).get ⟨j, hjh⟩)) =
          some ((([["Vlan1", "active", "Gi0/1, Gi0/2"]] :
            List (List String)).get ⟨i, hi⟩).get ⟨j, hj⟩)) :=
  ⟨by decide,
   by intro row hr; rw [List.mem_singleton] at hr; subst hr; decide,
   c6_one_mapping_per_row _ _ (by decide)
     (by intro row hr; rw [List.mem_singleton] at hr; subst hr; decide)⟩

/-- rowLoop succeeds whenever the row does not outrun the header. -/
theorem rowLoop_isSome (header : List String) :
    ∀ (row : List String) (index : Nat) (acc : Record),
      index + row.length ≤ header.length →
      (rowLoop header index acc row).isSome := by
  intro row
  induction row with
  | nil => intro index acc _; rfl
  | cons e rest ih =>
    intro index acc hbound
    have hidx0 : index < header.length := by
      simp only [List.length_cons] at hbound
      omega
    rw [rowLoop, List.get?_eq_get hidx0]
    exact ih (index + 1) _
      (by simp only [List.length_cons] at hbound; omega)

/-- C7: clitable_to_dict is deterministic, side-effect-free and total on
well-formed input.  Determinism and freedom from side effects hold by
construction of the embedding: the source reads only the table passed to it
and builds fresh objects, so it embeds as a pure function of the header and
rows.  Totality is the non-trivial part: the result is a value, never a
raised IndexError, whenever no row has more values than there are
headers. -/
theorem c7_normalizer_total (header : List String) :
    ∀ rows : List (List String),
      (∀ row ∈ rows, row.length ≤ header.length) →
      (clitable_to_dict header rows).isSome := by
  intro rows
  induction rows with
  | nil => intro _; rfl
  | cons row rest ih =>
    intro h
    have h1 := rowLoop_isSome header row 0 [] (by simpa using h row (by simp))
    have h2 := ih (fun r hr => h r (by simp [hr]))
    rw [clitable_to_dict]
    obtain ⟨d, hd⟩ := Option.isSome_iff_exists.mp h1
    obtain ⟨objs, hobjs⟩ := Option.isSome_iff_exists.mp h2
    rw [hd, hobjs]
    rfl

/-- Witness for C7: a table with a full row and a short row normalises
without failure. -/
theorem c7_witness :
    (∀ row ∈ [["a", "b"], ["c"]],
      row.length ≤ (["X", "Y"] : List String).length) ∧
    (clitable_to_dict ["X", "Y"] [["a", "b"], ["c"]]).isSome :=
  ⟨by intro row hr; simp at hr; rcases hr with rfl | rfl <;> decide,
   c7_normalizer_total ["X", "Y"] [["a", "b"], ["c"]]
     (by intro row hr; simp at hr; rcases hr with rfl | rfl <;> decide)⟩

/-- The per-device loop succeeds and keeps devices in iteration order when
every device map has the command key and every text structures without a
propagating error. -/
theorem deviceLoop_ok (parseCmd : Engine) (command : String) :
    ∀ devices : List (String × Record),
      (∀ p ∈ devices, ∃ t sd, dictGet p.2 command = some t ∧
        get_structured_data parseCmd t = .ok sd) →
      ∃ entries, deviceLoop parseCmd command devices = .ok entries ∧
        entries.length = devices.length ∧
        ∀ i (hi : i < devices.length) (hi2 : i < entries.length),
          (entries.get ⟨i, hi2⟩).1 = (devices.get ⟨i, hi⟩).1 := by
  intro devices
  induction devices with
  | nil =>
    intro _
    exact ⟨[], rfl, rfl, fun i hi => absurd hi (Nat.not_lt_zero i)⟩
  | cons p rest ih =>
    intro h
    obtain ⟨device, command_output⟩ := p
    obtain ⟨t, sd, hget, hsd⟩ := h (device, command_output) (by simp)
    have hget2 : dictGet command_output command = some t := hget
    obtain ⟨entries, hloop, hlen, hfst⟩ := ih (fun q hq => h q (by simp [hq]))
    refine ⟨(device, sd) :: entries, ?_, by simp [hlen], ?_⟩
    · simp only [deviceLoop, hget2, hsd, hloop]
    · intro i hi hi2
      cases i with
      | zero => rfl
      | succ i2 =>
        exact hfst i2 (Nat.lt_of_succ_lt_succ hi) (Nat.lt_of_succ_lt_succ hi2)

/-- The per-device loop raises KeyError as soon as it reaches a device whose
command map lacks the configured command, earlier devices parsing
cleanly. -/
theorem deviceLoop_keyError (parseCmd : Engine) (command : String)
    (device : String) (command_output : Record) (rest : List (String × Record))
    (hmiss : dictGet command_output command = none) :
    ∀ pre : List (String × Record),
      (∀ p ∈ pre, ∃ t sd, dictGet p.2 command = some t ∧
        get_structured_data parseCmd t = .ok sd) →
      deviceLoop parseCmd command (pre ++ (device, command_output) :: rest) =
        .error .keyError := by
  intro pre
  induction pre with
  | nil =>
    intro _
    simp only [List.nil_append, deviceLoop, hmiss]
  | cons q pre2 ih =>
    intro h
    obtain ⟨device2, co2⟩ := q
    obtain ⟨t, sd, hget, hsd⟩ := h (device2, co2) (by simp)
    have hget2 : dictGet co2 command = some t := hget
    have htail := ih (fun r hr => h r (by simp [hr]))
    simp only [List.cons_append, deviceLoop, hget2, hsd, List.append_eq, htail]

/-- C10: for per-device dict raw output, parse_raw_output returns one
device/response entry per device in iteration order when every device map
contains the configured command and every captured text structures without a
propagating error; and it raises KeyError, not a raw-text fallback, when a
device map lacks the command key. -/
theorem c10_parse_raw_output_per_device (parseCmd : Engine) (command : String) :
    (∀ devices : List (String × Record),
      (∀ p ∈ devices, ∃ t sd, dictGet p.2 command = some t ∧
        get_structured_data parseCmd t = .ok sd) →
      ∃ entries, parse_raw_output parseCmd command (.perDevice devices) =
          .ok (.perDevice entries) ∧
        entries.length = devices.length ∧
        ∀ i (hi : i < devices.length) (hi2 : i < entries.length),
          (entries.get ⟨i, hi2⟩).1 = (devices.get ⟨i, hi⟩).1) ∧
    (∀ (pre : List (String × Record)) (device : String)
        (command_output : Record) (rest : List (String × Record)),
      (∀ p ∈ pre, ∃ t sd, dictGet p.2 command = some t ∧
        get_structured_data parseCmd t = .ok sd) →
      dictGet command_output command = none →
      parse_raw_output parseCmd command
          (.perDevice (pre ++ (device, command_output) :: rest)) =
        .error .keyError) := by
  constructor
  · intro devices h
    obtain ⟨entries, hloop, hlen, hfst⟩ := deviceLoop_ok parseCmd command devices h
    exact ⟨entries, by simp only [parse_raw_output, hloop], hlen, hfst⟩
  · intro pre device command_output rest h hmiss
    have htail := deviceLoop_keyError parseCmd command device command_output
      rest hmiss pre h
    simp only [parse_raw_output, htail]

/-- Witness for C10 at concrete device maps: one device carrying the command
key, and one device lacking it. -/
theorem c10_witness :
    (∃ entries, parse_raw_output engineNoTemplate "show version"
        (.perDevice [("n9k1", [("show version", "out1")])]) =
        .ok (.perDevice entries) ∧
      entries.length = 1 ∧
      ∀ i (hi : i < ([("n9k1", [("show version", "out1")])] :
          List (String × Record)).length)
        (hi2 : i < entries.length),
        (entries.get ⟨i, hi2⟩).1 =
          (([("n9k1", [("show version", "out1")])] :
            List (String × Record)).get ⟨i, hi⟩).1) ∧
    parse_raw_output engineNoTemplate "show version"
        (.perDevice [("n9k2", [])]) = .error .keyError :=
  ⟨(c10_parse_raw_output_per_device engineNoTemplate "show version").1
      [("n9k1", [("show version", "out1")])]
      (by
        intro p hp
        rw [List.mem_singleton] at hp
        subst hp
        exact ⟨"out1", .raw "out1", rfl, rfl⟩),
   (c10_parse_raw_output_per_device engineNoTemplate "show version").2
      [] "n9k2" [] []
      (fun p hp => absurd hp (List.not_mem_nil p)) rfl⟩

end SirisShow
